import Mathlib

/-!
Verification of the falgu-rs unbounded multi-sender single-receiver channel
(src/lib.rs). Every mutation of the shared state in the source happens inside
one critical section of the single mutex, so the concurrent system is embedded
as a sequential transition system whose atomic steps are exactly those critical
sections. Blocking of `recv` on the condition variable is represented by the
step function returning `none` (the call would park and retry); a completed
call returns `some (result, new state)`.
-/

namespace Falgu

/-- The lock-protected shared state of the channel (struct `Shared<T>` in the
source): the FIFO queue (`VecDeque<T>`, embedded as a `List` whose head is the
queue front) and the live-sender counter (`usize`, embedded as `Nat`). -/
structure Shared (T : Type) where
  queue : List T
  senders : Nat
  deriving DecidableEq

namespace Sender

variable {T : Type}

/-- `Sender::send`: lock, `queue.push_back(value)`, unlock, `notify_one`.
It is a total function with no error outcome; the `Bool` records that the
condition variable was signalled (always `true`, exactly once per call). -/
def send (v : T) (sh : Shared T) : Shared T × Bool :=
  ({ sh with queue := sh.queue ++ [v] }, true)

/-- `<Sender as Clone>::clone`: lock, `senders += 1`, unlock. -/
def clone (sh : Shared T) : Shared T :=
  { sh with senders := sh.senders + 1 }

/-- `<Sender as Drop>::drop`: lock, `senders -= 1`, `is_last = senders == 0`,
unlock, and `notify_one` exactly when `is_last`. The returned `Bool` is
`is_last`, i.e. whether the condition variable was signalled. -/
def dropSender (sh : Shared T) : Shared T × Bool :=
  let sh' : Shared T := { sh with senders := sh.senders - 1 }
  (sh', sh'.senders == 0)

end Sender

namespace Receiver

variable {T : Type}

/-- `Receiver::recv` as one atomic decision, given the shared state and the
receiver-private read-ahead buffer. Fast path: pop the buffer front without
the lock. Slow path under the lock: `queue.pop_front()`; on `Some(value)`,
`mem::swap(buffer, queue)` (the buffer is empty here, so the buffer becomes
the rest of the queue and the queue becomes empty) and return the value; on
`None` with `senders == 0` return end of stream (`none` result); otherwise
the call waits on the condition variable, embedded as the outer `none`. -/
def recv (sh : Shared T) (buf : List T) : Option (Option T × Shared T × List T) :=
  match buf with
  | v :: rest => some (some v, sh, rest)
  | [] =>
    match sh.queue with
    | v :: rest => some (some v, { sh with queue := [] }, rest)
    | [] => if sh.senders = 0 then some (none, sh, []) else none

end Receiver

/-- `channel::<T>()`: the freshly constructed shared state (empty queue,
`senders = 1`) paired with the receiver's initially empty read-ahead buffer. -/
def channel (T : Type) : Shared T × List T :=
  ({ queue := [], senders := 1 }, [])

/-- Whole-system state: the shared state, the receiver's read-ahead buffer,
and ghost bookkeeping of the handles the runtime holds — the number of
currently-alive `Sender` values and whether the `Receiver` is still alive. -/
structure Sys (T : Type) where
  shared : Shared T
  buffer : List T
  alive : Nat
  receiverAlive : Bool
  deriving DecidableEq

/-- The system state right after `channel()` returns: one live sender, a live
receiver, empty queue, empty buffer. -/
def initSys (T : Type) : Sys T :=
  { shared := (channel T).1, buffer := (channel T).2, alive := 1, receiverAlive := true }

/-- One atomic transition of the system: an API call made through a handle
that is actually alive. A `recv` step is a completed call (the function
returned `some`); a call that would block takes no step. -/
inductive Step {T : Type} : Sys T → Sys T → Prop
  | clone (s : Sys T) (h : 1 ≤ s.alive) :
      Step s { s with shared := Sender.clone s.shared, alive := s.alive + 1 }
  | dropSender (s : Sys T) (h : 1 ≤ s.alive) :
      Step s { s with shared := (Sender.dropSender s.shared).1, alive := s.alive - 1 }
  | send (s : Sys T) (v : T) (h : 1 ≤ s.alive) :
      Step s { s with shared := (Sender.send v s.shared).1 }
  | dropReceiver (s : Sys T) (h : s.receiverAlive = true) :
      Step s { s with receiverAlive := false }
  | recv (s : Sys T) (r : Option T) (sh : Shared T) (buf : List T)
      (hr : s.receiverAlive = true)
      (h : Receiver.recv s.shared s.buffer = some (r, sh, buf)) :
      Step s { s with shared := sh, buffer := buf }

/-- A state the system can actually be in, starting from `channel()`. -/
def Reachable {T : Type} (s : Sys T) : Prop :=
  Relation.ReflTransGen Step (initSys T) s

/-- `Sender.send` lifted to the whole system state: only the shared state
changes; the `Bool` is the signal, as in `Sender.send`. -/
def sysSend {T : Type} (v : T) (s : Sys T) : Sys T × Bool :=
  ({ s with shared := (Sender.send v s.shared).1 }, (Sender.send v s.shared).2)

/-- A sender-side operation: what any mix of `Sender` handles can do before
the receiver runs (`send`, `clone`, or a handle being dropped). -/
inductive SOp (T : Type) where
  | send : T → SOp T
  | clone : SOp T
  | dropSender : SOp T

/-- Effect of one sender-side operation on the shared state. -/
def applySOp {T : Type} (sh : Shared T) : SOp T → Shared T
  | SOp.send v => (Sender.send v sh).1
  | SOp.clone => Sender.clone sh
  | SOp.dropSender => (Sender.dropSender sh).1

/-- Effect of a whole serialized trace of sender-side operations, in the
global arrival order under the lock. -/
def applySOps {T : Type} (ops : List (SOp T)) (sh : Shared T) : Shared T :=
  List.foldl applySOp sh ops

/-- The values a trace of sender-side operations enqueues, in arrival order. -/
def sentValues {T : Type} : List (SOp T) → List T
  | [] => []
  | SOp.send v :: ops => v :: sentValues ops
  | SOp.clone :: ops => sentValues ops
  | SOp.dropSender :: ops => sentValues ops

/-- The values returned by `fuel` successive completed `recv` calls, stopping
at the first call that reports end of stream or would block. -/
def recvList {T : Type} : Nat → Shared T → List T → List T
  | 0, _, _ => []
  | fuel + 1, sh, buf =>
    match Receiver.recv sh buf with
    | some (some v, sh', buf') => v :: recvList fuel sh' buf'
    | some (none, _, _) => []
    | none => []

/-- An operation of the full system, for comparing the batched receiver with
the naive one: sender-side operations plus a `recv` call. -/
inductive Op (T : Type) where
  | send : T → Op T
  | clone : Op T
  | dropSender : Op T
  | recv : Op T

/-- Modelled from the spec: the naive receiver variant that has no read-ahead
buffer and pops one element at a time from the shared queue under the lock;
end of stream and blocking exactly as in `Receiver.recv`. -/
def naiveRecv {T : Type} (sh : Shared T) : Option (Option T × Shared T) :=
  match sh.queue with
  | v :: rest => some (some v, { sh with queue := rest })
  | [] => if sh.senders = 0 then some (none, sh) else none

/-- Observable outcomes of a trace run against the batched (source) receiver:
one entry per `recv` op — `some r` when the call completes with result `r`,
`none` when the call would block. -/
def runBatched {T : Type} : List (Op T) → Shared T → List T → List (Option (Option T))
  | [], _, _ => []
  | Op.send v :: ops, sh, buf => runBatched ops (Sender.send v sh).1 buf
  | Op.clone :: ops, sh, buf => runBatched ops (Sender.clone sh) buf
  | Op.dropSender :: ops, sh, buf => runBatched ops (Sender.dropSender sh).1 buf
  | Op.recv :: ops, sh, buf =>
    match Receiver.recv sh buf with
    | some (r, sh', buf') => some r :: runBatched ops sh' buf'
    | none => none :: runBatched ops sh buf

/-- Observable outcomes of the same trace against the naive receiver. -/
def runNaive {T : Type} : List (Op T) → Shared T → List (Option (Option T))
  | [], _ => []
  | Op.send v :: ops, sh => runNaive ops (Sender.send v sh).1
  | Op.clone :: ops, sh => runNaive ops (Sender.clone sh)
  | Op.dropSender :: ops, sh => runNaive ops (Sender.dropSender sh).1
  | Op.recv :: ops, sh =>
    match naiveRecv sh with
    | some (r, sh') => some r :: runNaive ops sh'
    | none => none :: runNaive ops sh

section Lemmas

variable {T : Type}

/-- A completed `recv` never changes the sender counter. -/
lemma recv_senders {sh sh' : Shared T} {buf buf' : List T} {r : Option T}
    (h : Receiver.recv sh buf = some (r, sh', buf')) : sh'.senders = sh.senders := by
  unfold Receiver.recv at h
  cases buf with
  | cons v rest => simp at h; obtain ⟨-, h2, -⟩ := h; rw [← h2]
  | nil =>
    cases hq : sh.queue with
    | cons v rest => rw [hq] at h; simp at h; obtain ⟨-, h2, -⟩ := h; rw [← h2]
    | nil =>
      rw [hq] at h
      by_cases hs : sh.senders = 0
      · simp [hs] at h; obtain ⟨-, h2, -⟩ := h; rw [← h2]
      · simp [hs] at h

/-- A completed `recv` with result `none` happens exactly at end of stream:
empty buffer, empty queue, no senders; the state is left unchanged. -/
lemma recv_none_iff {sh sh' : Shared T} {buf buf' : List T}
    (h : Receiver.recv sh buf = some (none, sh', buf')) :
    buf = [] ∧ sh.queue = [] ∧ sh.senders = 0 ∧ sh' = sh ∧ buf' = [] := by
  unfold Receiver.recv at h
  cases buf with
  | cons v rest => simp at h
  | nil =>
    cases hq : sh.queue with
    | cons v rest => rw [hq] at h; simp at h
    | nil =>
      rw [hq] at h
      by_cases hs : sh.senders = 0
      · simp [hs] at h
        obtain ⟨h1, h2⟩ := h
        exact ⟨rfl, rfl, hs, h1.symm, h2⟩
      · simp [hs] at h

/-- Every step preserves the counting invariant `senders = alive`. -/
lemma step_preserves_count {a b : Sys T} (h : Step a b)
    (ih : a.shared.senders = a.alive) : b.shared.senders = b.alive := by
  cases h with
  | clone h1 => simp [Sender.clone, ih]
  | dropSender h1 => simp [Sender.dropSender, ih]
  | send v h1 => simpa [Sender.send] using ih
  | dropReceiver h1 => simpa using ih
  | recv r sh buf hr h2 => simpa [recv_senders h2] using ih

/-- A predicate preserved by every step holds along any run. -/
lemma preserved_along (P : Sys T → Prop)
    (hstep : ∀ a b : Sys T, P a → Step a b → P b)
    {s t : Sys T} (hst : Relation.ReflTransGen Step s t) (hs : P s) : P t := by
  induction hst with
  | refl => exact hs
  | tail h1 h2 ih => exact hstep _ _ ih h2

/-- In every reachable state the shared counter equals the ghost count of
live `Sender` handles. -/
lemma reachable_senders_eq_alive {s : Sys T} (h : Reachable s) :
    s.shared.senders = s.alive := by
  refine preserved_along (fun u => u.shared.senders = u.alive)
    (fun a b ha hab => step_preserves_count hab ha) h ?_
  rfl

end Lemmas

section TraceLemmas

variable {T : Type}

lemma applySOp_queue (sh : Shared T) (op : SOp T) :
    (applySOp sh op).queue = sh.queue ++ sentValues [op] := by
  cases op with
  | send v => simp [applySOp, Sender.send, sentValues]
  | clone => simp [applySOp, Sender.clone, sentValues]
  | dropSender => simp [applySOp, Sender.dropSender, sentValues]

lemma sentValues_cons (op : SOp T) (ops : List (SOp T)) :
    sentValues (op :: ops) = sentValues [op] ++ sentValues ops := by
  cases op <;> simp [sentValues]

/-- Sender-side traces append exactly their sent values to the queue. -/
lemma applySOps_queue (ops : List (SOp T)) (sh : Shared T) :
    (applySOps ops sh).queue = sh.queue ++ sentValues ops := by
  induction ops generalizing sh with
  | nil => simp [applySOps, sentValues]
  | cons op ops ih =>
    rw [sentValues_cons]
    calc (applySOps (op :: ops) sh).queue
        = (applySOps ops (applySOp sh op)).queue := rfl
      _ = (applySOp sh op).queue ++ sentValues ops := ih _
      _ = sh.queue ++ (sentValues [op] ++ sentValues ops) := by
          rw [applySOp_queue, List.append_assoc]

/-- Successive `recv` calls deliver the pending values — read-ahead buffer
first, then the shared queue — front first. -/
lemma recvList_eq_take (fuel : Nat) (sh : Shared T) (buf : List T) :
    recvList fuel sh buf = (buf ++ sh.queue).take fuel := by
  induction fuel generalizing sh buf with
  | zero => simp [recvList]
  | succ fuel ih =>
    cases buf with
    | cons v rest =>
      simp only [recvList, Receiver.recv, List.cons_append, List.take_succ_cons]
      rw [ih]
    | nil =>
      cases hq : sh.queue with
      | cons v rest =>
        simp only [recvList, Receiver.recv, hq, List.nil_append, List.take_succ_cons]
        rw [ih]
        simp
      | nil =>
        by_cases hs : sh.senders = 0 <;>
          simp [recvList, Receiver.recv, hq, hs]

end TraceLemmas

/-- Simulation: the batched system with buffer `buf` and queue `q` behaves
exactly like the naive system whose queue is `buf ++ q`. -/
lemma runBatched_eq_runNaive {T : Type} (ops : List (Op T)) (sh : Shared T) (buf : List T) :
    runBatched ops sh buf = runNaive ops { queue := buf ++ sh.queue, senders := sh.senders } := by
  induction ops generalizing sh buf with
  | nil => simp [runBatched, runNaive]
  | cons op ops ih =>
    obtain ⟨q, n⟩ := sh
    cases op with
    | send v =>
      simp only [runBatched, runNaive, Sender.send]
      rw [ih]
      simp [List.append_assoc]
    | clone =>
      simp only [runBatched, runNaive, Sender.clone]
      exact ih _ _
    | dropSender =>
      simp only [runBatched, runNaive, Sender.dropSender]
      exact ih _ _
    | recv =>
      cases buf with
      | cons v rest =>
        simp only [runBatched, runNaive, Receiver.recv, naiveRecv, List.cons_append]
        rw [ih]
      | nil =>
        cases q with
        | cons v rest =>
          simp only [runBatched, runNaive, Receiver.recv, naiveRecv, List.nil_append]
          rw [ih]
          simp
        | nil =>
          by_cases hs : n = 0 <;>
            simp [runBatched, runNaive, Receiver.recv, naiveRecv, hs, ih]

/-- Claim C1: FIFO delivery — for every serialized trace of sender-side
operations (sends by any mix of handles, interleaved with clones and drops)
executed from `channel()` before any receive, successive `recv` calls return
exactly the enqueued values in exactly their global arrival order; the
receiver-side whole-queue-swap batching never reorders them. -/
theorem fifo_delivery {T : Type} (ops : List (SOp T)) :
    recvList (sentValues ops).length (applySOps ops (channel T).1) (channel T).2 =
      sentValues ops := by
  rw [recvList_eq_take, applySOps_queue]
  show (([] : List T) ++ (([] : List T) ++ sentValues ops)).take (sentValues ops).length
      = sentValues ops
  simp

/-- Claim C2: end-of-stream condition — `recv` completes with the
end-of-stream marker (result `none`) if and only if the read-ahead buffer is
empty, the shared queue is empty, and the live-sender count is zero at the
time of the check. -/
theorem eos_iff_no_senders_and_empty {T : Type} (sh : Shared T) (buf : List T) :
    (∃ sh' buf', Receiver.recv sh buf = some (none, sh', buf')) ↔
      (buf = [] ∧ sh.queue = [] ∧ sh.senders = 0) := by
  constructor
  · rintro ⟨sh', buf', h⟩
    obtain ⟨h1, h2, h3, -, -⟩ := recv_none_iff h
    exact ⟨h1, h2, h3⟩
  · rintro ⟨h1, h2, h3⟩
    refine ⟨sh, [], ?_⟩
    subst h1
    simp [Receiver.recv, h2, h3]

/-- Claim C3: end-of-stream is permanent — if in a reachable state a `recv`
call completes with the end-of-stream marker, then after any further run of
the system every `recv` call again completes immediately (no blocking) with
the end-of-stream marker: the live-sender count can never become positive
again, so no new value can appear. -/
theorem eos_is_permanent {T : Type} (s t : Sys T) (sh' : Shared T) (buf' : List T)
    (hreach : Reachable s)
    (heos : Receiver.recv s.shared s.buffer = some (none, sh', buf'))
    (hrun : Relation.ReflTransGen Step s t) :
    Receiver.recv t.shared t.buffer = some (none, t.shared, t.buffer) := by
  obtain ⟨hbuf, hq, hs, -, -⟩ := recv_none_iff heos
  have halive : s.alive = 0 := by
    rw [← reachable_senders_eq_alive hreach, hs]
  have hterm : t.buffer = [] ∧ t.shared.queue = [] ∧ t.shared.senders = 0 ∧ t.alive = 0 := by
    refine preserved_along
      (fun u => u.buffer = [] ∧ u.shared.queue = [] ∧ u.shared.senders = 0 ∧ u.alive = 0)
      ?_ hrun ⟨hbuf, hq, hs, halive⟩
    rintro a b ⟨ha1, ha2, ha3, ha4⟩ hab
    cases hab with
    | clone h1 => omega
    | dropSender h1 => omega
    | send v h1 => omega
    | dropReceiver h1 => exact ⟨ha1, ha2, ha3, ha4⟩
    | recv r sh buf hr h2 =>
      have hcomp : Receiver.recv a.shared a.buffer = some (none, a.shared, []) := by
        rw [ha1]
        simp [Receiver.recv, ha2, ha3]
      rw [h2] at hcomp
      injection hcomp with e
      injection e with e1 e2
      injection e2 with e3 e4
      exact ⟨e4, by rw [e3]; exact ha2, by rw [e3]; exact ha3, ha4⟩
  obtain ⟨ht1, ht2, ht3, -⟩ := hterm
  rw [ht1]
  simp [Receiver.recv, ht2, ht3, ht1]

/-- Claim C4: live-sender accounting — in every reachable state the shared
counter equals the exact number of currently-alive `Sender` handles; the
constructor starts with counter 1, one live sender, empty queue and empty
read-ahead buffer; `clone` increments the counter by exactly one and `drop`
decrements it by exactly one, both leaving the queue untouched. -/
theorem live_sender_accounting {T : Type} (s : Sys T) (h : Reachable s) :
    s.shared.senders = s.alive ∧
    initSys T = { shared := { queue := [], senders := 1 }, buffer := [],
                  alive := 1, receiverAlive := true } ∧
    (∀ sh : Shared T, Sender.clone sh = { queue := sh.queue, senders := sh.senders + 1 }) ∧
    (∀ (q : List T) (n : Nat),
      (Sender.dropSender { queue := q, senders := n + 1 }).1 = { queue := q, senders := n }) :=
  ⟨reachable_senders_eq_alive h, rfl, fun _ => rfl, fun _ _ => rfl⟩

/-- Witness for C4 at a concrete reachable state: starting from `channel()`,
cloning the sender and then dropping one handle reaches a state with one live
handle, where the counter indeed reads 1. -/
theorem live_sender_accounting_witness :
    (⟨⟨[], 1⟩, [], 1, true⟩ : Sys Nat).shared.senders =
      (⟨⟨[], 1⟩, [], 1, true⟩ : Sys Nat).alive := by
  have h1 : Step (initSys Nat) (⟨⟨[], 2⟩, [], 2, true⟩ : Sys Nat) := by
    have hc := Step.clone (initSys Nat) (by decide)
    simpa [initSys, channel, Sender.clone] using hc
  have h2 : Step (⟨⟨[], 2⟩, [], 2, true⟩ : Sys Nat) (⟨⟨[], 1⟩, [], 1, true⟩ : Sys Nat) := by
    have hd := Step.dropSender (T := Nat) (⟨⟨[], 2⟩, [], 2, true⟩ : Sys Nat) (by decide)
    simpa [Sender.dropSender] using hd
  exact (live_sender_accounting _
    (Relation.ReflTransGen.tail (Relation.ReflTransGen.single h1) h2)).1

/-- Claim C5: last-drop signalling — dropping a `Sender` whose shared counter
reads `n + 1` decrements the counter to `n` and leaves the queue untouched,
and it signals the condition variable exactly when the decremented counter is
zero (a drop that leaves the counter positive does not signal). -/
theorem last_drop_signals {T : Type} (q : List T) (n : Nat) :
    (Sender.dropSender { queue := q, senders := n + 1 }).1 = { queue := q, senders := n } ∧
    ((Sender.dropSender { queue := q, senders := n + 1 }).2 = true ↔ n = 0) := by
  refine ⟨rfl, ?_⟩
  simp [Sender.dropSender]

/-- Claim C6: send contract — `send` is a total function with no error
outcome: from every system state it appends the value to the back of the
shared queue, signals the condition variable exactly once, changes nothing
else (sender count, read-ahead buffer, ghost handle counts all unchanged),
and its effect is identical when the receiver has already been dropped. -/
theorem send_contract {T : Type} (s : Sys T) (v : T) :
    Sender.send v s.shared =
      ({ queue := s.shared.queue ++ [v], senders := s.shared.senders }, true) ∧
    (sysSend v s).1.buffer = s.buffer ∧
    (sysSend v s).1.alive = s.alive ∧
    (sysSend v s).1.receiverAlive = s.receiverAlive ∧
    (sysSend v s).2 = true ∧
    sysSend v { s with receiverAlive := false } =
      ({ (sysSend v s).1 with receiverAlive := false }, true) :=
  ⟨rfl, rfl, rfl, rfl, rfl, rfl⟩

/-- Claim C7: slow-path drain step — when `recv` finds the read-ahead buffer
empty and the shared queue non-empty, it returns the queue's front element,
moves the whole rest of the queue into the read-ahead buffer in the one swap,
and leaves the shared queue empty (sender count unchanged). -/
theorem slow_path_drain {T : Type} (n : Nat) (v : T) (rest : List T) :
    Receiver.recv { queue := v :: rest, senders := n } [] =
      some (some v, { queue := [], senders := n }, rest) :=
  rfl

/-- Claim C8: fast-path frame — when the read-ahead buffer is non-empty,
`recv` pops and returns the buffer's front element and leaves the entire
shared state (queue and sender count) unchanged; no lock is needed, which
the embedding reflects by the shared state being returned untouched. -/
theorem fast_path_frame {T : Type} (sh : Shared T) (v : T) (rest : List T) :
    Receiver.recv sh (v :: rest) = some (some v, sh, rest) :=
  rfl

/-- Claim C9: batching is a pure optimization — for every trace of
send/clone/drop/recv operations started at `channel()`, the batched (source)
receiver and the naive one-element-at-a-time receiver produce exactly the
same sequence of observable `recv` outcomes: same values in the same order,
end of stream and blocking at exactly the same points. -/
theorem batching_refines_naive {T : Type} (ops : List (Op T)) :
    runBatched ops (channel T).1 (channel T).2 = runNaive ops (channel T).1 := by
  rw [runBatched_eq_runNaive]
  rfl

/-- Claim C10: no counter underflow — in every reachable state in which at
least one `Sender` handle is alive (the precondition for a drop to run), the
shared counter is at least 1, so the unguarded `senders -= 1` in `Drop`
never underflows. -/
theorem drop_no_underflow {T : Type} (s : Sys T) (h1 : Reachable s)
    (h2 : 1 ≤ s.alive) : 1 ≤ s.shared.senders := by
  rw [reachable_senders_eq_alive h1]
  exact h2

/-- Witness for C10 at the initial state: one live handle, counter 1. -/
theorem drop_no_underflow_witness :
    1 ≤ (initSys Nat).alive ∧ 1 ≤ (initSys Nat).shared.senders :=
  ⟨by decide, drop_no_underflow (initSys Nat) Relation.ReflTransGen.refl (by decide)⟩

/-- Witness for C3 at a concrete run: dropping the only sender right after
`channel()` reaches a state where `recv` reports end of stream, and from that
state `recv` keeps reporting end of stream immediately. -/
theorem eos_is_permanent_witness :
    Receiver.recv (⟨⟨[], 0⟩, [], 0, true⟩ : Sys Nat).shared
        (⟨⟨[], 0⟩, [], 0, true⟩ : Sys Nat).buffer =
      some (none, (⟨⟨[], 0⟩, [], 0, true⟩ : Sys Nat).shared,
        (⟨⟨[], 0⟩, [], 0, true⟩ : Sys Nat).buffer) := by
  have h1 : Step (initSys Nat) (⟨⟨[], 0⟩, [], 0, true⟩ : Sys Nat) := by
    have hd := Step.dropSender (T := Nat) (initSys Nat) (by decide)
    simpa [initSys, channel, Sender.dropSender] using hd
  exact eos_is_permanent (⟨⟨[], 0⟩, [], 0, true⟩ : Sys Nat) (⟨⟨[], 0⟩, [], 0, true⟩ : Sys Nat)
    ⟨[], 0⟩ [] (Relation.ReflTransGen.single h1) (by decide) Relation.ReflTransGen.refl

end Falgu
